import Mathlib

/-!
# WorkflowIQ — verification of the spec against the source

Shallow embedding of the core of the WorkflowIQ repository:

* the rate-limit-aware batch fetch loop of `app.post('/api/analyze')`
  (`server.js`, lines 250–316),
* the paginated search helper `doSearch` (`server.js`, lines 188–207),
* the deduplication pass over search results (`server.js`, lines 225–236),
* the session manager `isTokenFresh` / `getSession` and the wrapper
  `authenticatedRequest` (`src/auth.js`),
* the cached summarization driver `summarizeAll` (`src/analyzer.js`).

Remote services (the Centax search/fetch API, the OpenAI endpoint) and the
Node standard library (base64 decoding, JSON parsing, the filesystem) are
modelled as explicit oracles/parameters; everything the repository itself
computes is translated directly from the JavaScript source.  Timers
(`setTimeout` waits) are modelled as recorded events, since the claims speak
about which delays occur, not about real time.
-/

namespace WorkflowIQ

/-! ## JavaScript string helpers

`String.prototype.includes(pat)` — substring containment — modelled over
`List Char`, and `String.prototype.replace(pat, repl)` which replaces only
the FIRST occurrence of `pat`. -/

/-- Does the character list `s` start with `pat`? -/
def charsStartWith : List Char → List Char → Bool
  | _, [] => true
  | [], _ :: _ => false
  | a :: as, b :: bs => a = b && charsStartWith as bs

/-- Does the character list `s` contain `pat` as a contiguous run? -/
def charsContain : List Char → List Char → Bool
  | [], pat => pat.isEmpty
  | a :: rest, pat => charsStartWith (a :: rest) pat || charsContain rest pat

/-- JS `s.includes(pat)`. -/
def jsIncludes (s pat : String) : Bool :=
  charsContain s.toList pat.toList

/-- JS `s.replace(pat, repl)` over characters: replaces only the FIRST
occurrence of the (nonempty) pattern; a string without the pattern is
returned unchanged.  (`String.replace` in Lean replaces every occurrence,
so it is not a faithful model of the JS method.) -/
def replaceFirstChars (pat repl : List Char) : List Char → List Char
  | [] => []
  | c :: rest =>
    if charsStartWith (c :: rest) pat = true then repl ++ (c :: rest).drop pat.length
    else c :: replaceFirstChars pat repl rest

/-- JS `s.replace(pat, repl)` on strings. -/
def replaceFirst (s pat repl : String) : String :=
  String.mk (replaceFirstChars pat.toList repl.toList s.toList)

/-- JS `s.split(sep)` for a one-character separator: `"" ↦ [""]`,
`"a.b" ↦ ["a", "b"]`, a string without the separator maps to the
one-element list of itself. -/
def splitChars (sep : Char) : List Char → List (List Char)
  | [] => [[]]
  | c :: rest =>
    let r := splitChars sep rest
    if c = sep then [] :: r
    else
      match r with
      | [] => [[c]]
      | g :: gs => (c :: g) :: gs

/-- JS `s.split(sep)` on strings. -/
def jsSplit (s : String) (sep : Char) : List String :=
  (splitChars sep s.toList).map String.mk

/-! ## The batch fetch loop of `/api/analyze` (`server.js` 250–316)

Each per-item `getCaseHTML` call either yields the document text or throws
an error carrying a message string; the loop classifies a failure as
rate-limiting when the message contains `'409'` or `'limit'`.  The outcome
of the `i`-th item's `a`-th attempt is given by an oracle
`fetch : Nat → Nat → FetchOutcome`. -/

/-- Outcome of one `getCaseHTML` call: the document text, or a thrown error
with its `err.message`. -/
inductive FetchOutcome where
  | ok (text : String)
  | err (message : String)
deriving DecidableEq

/-- `const MAX_RETRIES = 3` (`server.js` 253). -/
def MAX_RETRIES : Nat := 3

/-- `err.message?.includes('409') || err.message?.includes('limit')`
(`server.js` 271). -/
def isRateLimitError (message : String) : Bool :=
  jsIncludes message "409" || jsIncludes message "limit"

/-- What the inner `while` loop did to one item: how many fetch attempts
were made, whether the item succeeded, and the exponential-backoff waits
(in ms) performed between attempts. -/
structure ItemRecord where
  attempts : Nat
  success : Bool
  backoffs : List Nat
deriving DecidableEq

/-- The inner `while (!success && retries < MAX_RETRIES)` loop
(`server.js` 255–283) for a single item, with `fetch a` the outcome of the
attempt made when `retries = a`.  The fuel argument equals
`MAX_RETRIES - retries`, so running out of fuel is exactly the `while`
condition turning false. -/
def runAttemptsAux (fetch : Nat → FetchOutcome) : Nat → Nat → ItemRecord
  | 0, _ => ⟨0, false, []⟩
  | fuel + 1, retries =>
    match fetch retries with
    | .ok _ => ⟨1, true, []⟩
    | .err msg =>
      let r := retries + 1
      if isRateLimitError msg = true ∧ r < MAX_RETRIES then
        let b := min (5000 * 2 ^ r) 30000
        let sub := runAttemptsAux fetch fuel r
        ⟨sub.attempts + 1, sub.success, b :: sub.backoffs⟩
      else ⟨1, false, []⟩

/-- One item's whole retry budget: the inner loop entered with
`retries = 0`. -/
def runAttempts (fetch : Nat → FetchOutcome) : ItemRecord :=
  runAttemptsAux fetch MAX_RETRIES 0

/-- The waits the loop performs, in order: per-attempt exponential backoff,
the 30 s pause after 5 consecutive failures, the 800 ms inter-item delay,
and the 15 s cooldown every 30 items. -/
inductive WaitEvent where
  | backoff (ms : Nat)
  | saturationCooldown
  | interItem
  | periodicCooldown
deriving DecidableEq

/-- State of the outer `for` loop over `cases`: `succCount` is
`caseTexts.length`, `consecutiveFails` the like-named counter,
`waits` every `setTimeout` wait performed so far (in order), `items` the
per-item retry records, and `failsTrace` the value of `consecutiveFails`
at the end of each iteration. -/
structure LoopState where
  succCount : Nat
  consecutiveFails : Nat
  waits : List WaitEvent
  items : List ItemRecord
  failsTrace : List Nat
deriving DecidableEq

/-- One iteration of the outer loop (`server.js` 250–308) on item `i` of
`n`: run the item's attempts; on success push the text and zero the
counter, on failure increment it; if the counter reaches 5, wait 30 s and
reset it; wait 800 ms unless this was the last item; every 30 items insert
the extra 15 s cooldown. -/
def fetchStep (fetch : Nat → Nat → FetchOutcome) (n : Nat) (st : LoopState) (i : Nat) :
    LoopState :=
  let record := runAttempts (fetch i)
  let midFails := if record.success then 0 else st.consecutiveFails + 1
  let coolWaits : List WaitEvent :=
    if midFails ≥ 5 then [WaitEvent.saturationCooldown] else []
  let newFails := if midFails ≥ 5 then 0 else midFails
  let baseWaits : List WaitEvent := if i < n - 1 then [WaitEvent.interItem] else []
  let periodicWaits : List WaitEvent :=
    if (i + 1) % 30 = 0 ∧ i < n - 1 then [WaitEvent.periodicCooldown] else []
  { succCount := if record.success then st.succCount + 1 else st.succCount
    consecutiveFails := newFails
    waits := st.waits ++ record.backoffs.map WaitEvent.backoff ++ coolWaits
      ++ baseWaits ++ periodicWaits
    items := st.items ++ [record]
    failsTrace := st.failsTrace ++ [newFails] }

/-- Loop entry state: no texts read, `consecutiveFails = 0`. -/
def initialLoopState : LoopState := ⟨0, 0, [], [], []⟩

/-- The whole fetch loop over a work list of `n` items. -/
def runFetchLoop (fetch : Nat → Nat → FetchOutcome) (n : Nat) : LoopState :=
  (List.range n).foldl (fetchStep fetch n) initialLoopState

/-- `const skippedCount = cases.length - caseTexts.length` (`server.js` 310). -/
def skippedCount (fetch : Nat → Nat → FetchOutcome) (n : Nat) : Nat :=
  n - (runFetchLoop fetch n).succCount

/-- An item whose fetch always throws a rate-limit-classified error is
attempted exactly `MAX_RETRIES = 3` times, waits
`min (5000 * 2 ^ 1) 30000` ms then `min (5000 * 2 ^ 2) 30000` ms between
attempts, and ends unsuccessful. -/
theorem runAttempts_rateLimited (f : Nat → FetchOutcome)
    (h : ∀ a, ∃ m, f a = FetchOutcome.err m ∧ isRateLimitError m = true) :
    runAttempts f = ⟨3, false, [min (5000 * 2 ^ 1) 30000, min (5000 * 2 ^ 2) 30000]⟩ := by
  obtain ⟨m0, e0, r0⟩ := h 0
  obtain ⟨m1, e1, r1⟩ := h 1
  obtain ⟨m2, e2, r2⟩ := h 2
  simp [runAttempts, runAttemptsAux, MAX_RETRIES, e0, e1, e2, r0, r1, r2]

/-- If every attempt throws, the inner retry loop never reports success. -/
theorem runAttemptsAux_err_not_success (f : Nat → FetchOutcome)
    (h : ∀ a, ∃ m, f a = FetchOutcome.err m) :
    ∀ fuel retries, (runAttemptsAux f fuel retries).success = false := by
  intro fuel
  induction fuel with
  | zero => intro retries; simp [runAttemptsAux]
  | succ fuel ih =>
    intro retries
    obtain ⟨m, e⟩ := h retries
    simp only [runAttemptsAux, e]
    split
    · simpa using ih (retries + 1)
    · rfl

theorem runAttempts_err_not_success (f : Nat → FetchOutcome)
    (h : ∀ a, ∃ m, f a = FetchOutcome.err m) :
    (runAttempts f).success = false :=
  runAttemptsAux_err_not_success f h MAX_RETRIES 0

theorem fetchStep_succCount (fetch : Nat → Nat → FetchOutcome) (n : Nat)
    (st : LoopState) (i : Nat) :
    (fetchStep fetch n st i).succCount
      = if (runAttempts (fetch i)).success then st.succCount + 1 else st.succCount := rfl

theorem fetchStep_consecutiveFails (fetch : Nat → Nat → FetchOutcome) (n : Nat)
    (st : LoopState) (i : Nat) :
    (fetchStep fetch n st i).consecutiveFails
      = if (if (runAttempts (fetch i)).success then 0 else st.consecutiveFails + 1) ≥ 5
        then 0
        else if (runAttempts (fetch i)).success then 0 else st.consecutiveFails + 1 := rfl

theorem fetchStep_items (fetch : Nat → Nat → FetchOutcome) (n : Nat)
    (st : LoopState) (i : Nat) :
    (fetchStep fetch n st i).items = st.items ++ [runAttempts (fetch i)] := rfl

theorem fetchStep_failsTrace (fetch : Nat → Nat → FetchOutcome) (n : Nat)
    (st : LoopState) (i : Nat) :
    (fetchStep fetch n st i).failsTrace
      = st.failsTrace ++ [(fetchStep fetch n st i).consecutiveFails] := rfl

theorem fetchStep_waits (fetch : Nat → Nat → FetchOutcome) (n : Nat)
    (st : LoopState) (i : Nat) :
    (fetchStep fetch n st i).waits
      = st.waits ++ (runAttempts (fetch i)).backoffs.map WaitEvent.backoff
        ++ (if (if (runAttempts (fetch i)).success then 0 else st.consecutiveFails + 1) ≥ 5
            then [WaitEvent.saturationCooldown] else [])
        ++ (if i < n - 1 then [WaitEvent.interItem] else [])
        ++ (if (i + 1) % 30 = 0 ∧ i < n - 1 then [WaitEvent.periodicCooldown] else []) := rfl

/-- The loop records one `ItemRecord` per item, in order, and the record of
item `i` is exactly what its own retry budget produced. -/
theorem foldl_fetchStep_items (fetch : Nat → Nat → FetchOutcome) (m : Nat)
    (l : List Nat) :
    ∀ st : LoopState,
      (l.foldl (fetchStep fetch m) st).items
        = st.items ++ l.map (fun i => runAttempts (fetch i)) := by
  induction l with
  | nil => intro st; simp
  | cons i l ih =>
    intro st
    simp only [List.foldl_cons, List.map_cons, ih, fetchStep_items]
    simp

/-- If every fetch of every item throws, no item ever succeeds and
`caseTexts` stays empty. -/
theorem foldl_fetchStep_succCount_zero (fetch : Nat → Nat → FetchOutcome) (m : Nat)
    (hfail : ∀ i a, ∃ msg, fetch i a = FetchOutcome.err msg) (l : List Nat) :
    ∀ st : LoopState,
      (l.foldl (fetchStep fetch m) st).succCount = st.succCount := by
  induction l with
  | nil => intro st; rfl
  | cons i l ih =>
    intro st
    simp only [List.foldl_cons, ih, fetchStep_succCount,
      runAttempts_err_not_success (fetch i) (hfail i)]
    simp

/-- The consecutive-failure counter stays at most 4 at every iteration
boundary (it only reaches 5 transiently, inside the iteration that then
takes the 30 s cooldown and resets it). -/
theorem foldl_fetchStep_fails_bound (fetch : Nat → Nat → FetchOutcome) (m : Nat)
    (l : List Nat) :
    ∀ st : LoopState, st.consecutiveFails ≤ 4 → (∀ v ∈ st.failsTrace, v ≤ 5) →
      (l.foldl (fetchStep fetch m) st).consecutiveFails ≤ 4
      ∧ ∀ v ∈ (l.foldl (fetchStep fetch m) st).failsTrace, v ≤ 5 := by
  induction l with
  | nil => exact fun st h1 h2 => ⟨h1, h2⟩
  | cons i l ih =>
    intro st h1 h2
    apply ih
    · rw [fetchStep_consecutiveFails]
      split <;> split <;> omega
    · intro v hv
      rw [fetchStep_failsTrace] at hv
      rcases List.mem_append.mp hv with hv | hv
      · exact h2 v hv
      · have : v = (fetchStep fetch m st i).consecutiveFails := by
          simpa using hv
        rw [this, fetchStep_consecutiveFails]
        split <;> split <;> omega

/-- A list of backoff waits contains no saturation-cooldown event. -/
theorem count_saturation_in_backoffs (bs : List Nat) :
    (bs.map WaitEvent.backoff).count WaitEvent.saturationCooldown = 0 := by
  rw [List.count_eq_zero]
  simp

/-- A fetch oracle on which every attempt of every item throws a
rate-limit-classified error (a message containing `'409'`). -/
def rlDemoFetch : Nat → Nat → FetchOutcome := fun _ _ => FetchOutcome.err "HTTP 409"

/-- A fetch oracle on which every attempt of every item throws a
permanent (non-rate-limit) error. -/
def permFailFetch : Nat → Nat → FetchOutcome := fun _ _ => FetchOutcome.err "boom"

/-- C1: for a work list of `n` items whose per-item fetch always throws a
rate-limit-classified error (message containing `'409'` or `'limit'`), each
item is attempted exactly 3 times with a wait of `min (5000*2^1) 30000` ms
after the first failed attempt and `min (5000*2^2) 30000` ms after the
second, after which the item is skipped without aborting the loop (all `n`
item records are produced, none successful), and the final skipped count
equals `n`. -/
theorem c1_rate_limited_batch (fetch : Nat → Nat → FetchOutcome) (n : Nat)
    (h : ∀ i a, ∃ m, fetch i a = FetchOutcome.err m ∧ isRateLimitError m = true) :
    (runFetchLoop fetch n).items
      = List.replicate n ⟨3, false, [min (5000 * 2 ^ 1) 30000, min (5000 * 2 ^ 2) 30000]⟩
    ∧ (runFetchLoop fetch n).succCount = 0
    ∧ skippedCount fetch n = n := by
  have hitems := foldl_fetchStep_items fetch n (List.range n) initialLoopState
  have hmap : (List.range n).map (fun i => runAttempts (fetch i))
      = List.replicate n
          (⟨3, false, [min (5000 * 2 ^ 1) 30000, min (5000 * 2 ^ 2) 30000]⟩ : ItemRecord) := by
    refine List.eq_replicate_iff.mpr ⟨by simp, ?_⟩
    intro r hr
    obtain ⟨i, _, rfl⟩ := List.mem_map.mp hr
    exact runAttempts_rateLimited (fetch i) (h i)
  have hsucc : (runFetchLoop fetch n).succCount = 0 := by
    have := foldl_fetchStep_succCount_zero fetch n
      (fun i a => (h i a).imp fun m hm => hm.1) (List.range n) initialLoopState
    simpa [runFetchLoop, initialLoopState] using this
  refine ⟨?_, hsucc, ?_⟩
  · rw [runFetchLoop] at hsucc ⊢
    rw [hitems, hmap]
    simp [initialLoopState]
  · rw [skippedCount, hsucc]
    omega

/-- C1 witness: three items, every attempt answering `err "HTTP 409"`. -/

theorem c1_witness :
    (runFetchLoop rlDemoFetch 3).items
      = List.replicate 3 ⟨3, false, [min (5000 * 2 ^ 1) 30000, min (5000 * 2 ^ 2) 30000]⟩
    ∧ (runFetchLoop rlDemoFetch 3).succCount = 0
    ∧ skippedCount rlDemoFetch 3 = 3 :=
  c1_rate_limited_batch rlDemoFetch 3 (fun _ _ => ⟨"HTTP 409", rfl, by decide⟩)

/-- C4: the consecutive-failure counter starts at 0, is set to 0 by a
successful item, is incremented by a failed item, and the iteration that
pushes it to the threshold 5 performs exactly one long saturation cooldown
and resets it to 0 — so at iteration boundaries the recorded counter never
exceeds 5; on a work list of 5 consecutively failing (non-rate-limit)
items the 30 s cooldown occurs exactly once and the counter ends at 0. -/
theorem c4_consecutive_fails_state_machine (fetch : Nat → Nat → FetchOutcome)
    (n v : Nat) (hv : v ∈ (runFetchLoop fetch n).failsTrace) :
    v ≤ 5
    ∧ initialLoopState.consecutiveFails = 0
    ∧ (∀ st i, (runAttempts (fetch i)).success = true →
        (fetchStep fetch n st i).consecutiveFails = 0)
    ∧ (∀ st i, (runAttempts (fetch i)).success = false → st.consecutiveFails + 1 < 5 →
        (fetchStep fetch n st i).consecutiveFails = st.consecutiveFails + 1)
    ∧ (∀ st i, (runAttempts (fetch i)).success = false → st.consecutiveFails + 1 = 5 →
        (fetchStep fetch n st i).consecutiveFails = 0
        ∧ (fetchStep fetch n st i).waits.count WaitEvent.saturationCooldown
            = st.waits.count WaitEvent.saturationCooldown + 1)
    ∧ (runFetchLoop permFailFetch 5).waits.count WaitEvent.saturationCooldown = 1
    ∧ (runFetchLoop permFailFetch 5).consecutiveFails = 0
    ∧ (runFetchLoop permFailFetch 5).failsTrace = [1, 2, 3, 4, 0] := by
  refine ⟨?_, rfl, ?_, ?_, ?_, by decide, by decide, by decide⟩
  · have := foldl_fetchStep_fails_bound fetch n (List.range n) initialLoopState
      (by simp [initialLoopState]) (by simp [initialLoopState])
    exact this.2 v hv
  · intro st i hs
    rw [fetchStep_consecutiveFails, hs]
    simp
  · intro st i hs hlt
    rw [fetchStep_consecutiveFails, hs]
    simp only [Bool.false_eq_true, if_false]
    split <;> omega
  · intro st i hs heq
    constructor
    · rw [fetchStep_consecutiveFails, hs]
      simp only [Bool.false_eq_true, if_false]
      split <;> omega
    · rw [fetchStep_waits, hs]
      simp only [Bool.false_eq_true, if_false, heq, ge_iff_le, le_refl, if_true,
        List.count_append, count_saturation_in_backoffs,
        apply_ite (List.count WaitEvent.saturationCooldown)]
      simp

/-- C4 witness: the counter trace of the 5-failure scenario contains the
value 1, which is ≤ 5, and the scenario's cooldown happens exactly once. -/
theorem c4_witness :
    (1 : Nat) ≤ 5
    ∧ (runFetchLoop permFailFetch 5).waits.count WaitEvent.saturationCooldown = 1
    ∧ (runFetchLoop permFailFetch 5).consecutiveFails = 0 := by
  have h := c4_consecutive_fails_state_machine permFailFetch 5 1 (by decide)
  exact ⟨h.1, h.2.2.2.2.2.1, h.2.2.2.2.2.2.1⟩

/-- C5: the batch fetch loop never raises on per-item failures (it is a
total function into a summary state): on an empty work list it ends
immediately in the initial state with zero items processed, and on a work
list of `n` permanently-failing items it processes all `n` items, reads
none, and reports a skipped count of `n` in the run summary. -/
theorem c5_all_failures_terminate (fetch : Nat → Nat → FetchOutcome) (n : Nat)
    (h : ∀ i a, ∃ m, fetch i a = FetchOutcome.err m) :
    runFetchLoop fetch 0 = initialLoopState
    ∧ (runFetchLoop fetch n).items.length = n
    ∧ (runFetchLoop fetch n).succCount = 0
    ∧ skippedCount fetch n = n := by
  have hsucc : (runFetchLoop fetch n).succCount = 0 := by
    have := foldl_fetchStep_succCount_zero fetch n h (List.range n) initialLoopState
    simpa [runFetchLoop, initialLoopState] using this
  refine ⟨rfl, ?_, hsucc, ?_⟩
  · rw [runFetchLoop, foldl_fetchStep_items]
    simp [initialLoopState]
  · rw [skippedCount, hsucc]
    omega

/-- C5 witness: four permanently failing items. -/
theorem c5_witness :
    runFetchLoop permFailFetch 0 = initialLoopState
    ∧ (runFetchLoop permFailFetch 4).items.length = 4
    ∧ (runFetchLoop permFailFetch 4).succCount = 0
    ∧ skippedCount permFailFetch 4 = 4 :=
  c5_all_failures_terminate permFailFetch 4 (fun _ _ => ⟨"boom", rfl⟩)

/-! ## Deduplication of search results (`server.js` 225–236)

```js
const seenIds = new Set();
const uniqueCases = [];
for (const c of cases) {
    if (!seenIds.has(c.id)) { seenIds.add(c.id); uniqueCases.push(c); }
}
```
-/

/-- A search hit as used by the analyze pipeline (only the fields the
claims touch; `heading` stands for the remaining payload). -/
structure CaseItem where
  id : Nat
  heading : String
deriving DecidableEq

/-- The dedup `for` loop, with `seen` the current contents of `seenIds`. -/
def dedupGo : List CaseItem → List Nat → List CaseItem
  | [], _ => []
  | c :: rest, seen =>
    if c.id ∈ seen then dedupGo rest seen
    else c :: dedupGo rest (c.id :: seen)

/-- `uniqueCases` as computed from `cases` (loop entered with an empty
`seenIds` set). -/
def dedupCases (cases : List CaseItem) : List CaseItem :=
  dedupGo cases []

/-- Every output of the dedup loop has an id that was not yet seen, and
the output ids (together with `seen`) are pairwise distinct. -/
theorem dedupGo_not_seen (l : List CaseItem) :
    ∀ seen, (∀ c ∈ dedupGo l seen, c.id ∉ seen)
      ∧ ((dedupGo l seen).map CaseItem.id).Nodup := by
  induction l with
  | nil => intro seen; simp [dedupGo]
  | cons c rest ih =>
    intro seen
    by_cases hc : c.id ∈ seen
    · simpa [dedupGo, hc] using ih seen
    · refine ⟨?_, ?_⟩
      · intro d hd
        rw [dedupGo, if_neg hc] at hd
        rcases List.mem_cons.mp hd with rfl | hd
        · exact hc
        · have := (ih (c.id :: seen)).1 d hd
          exact fun hmem => this (List.mem_cons_of_mem _ hmem)
      · rw [dedupGo, if_neg hc]
        simp only [List.map_cons, List.nodup_cons]
        refine ⟨?_, (ih (c.id :: seen)).2⟩
        intro hmem
        obtain ⟨d, hd, hid⟩ := List.mem_map.mp hmem
        exact (ih (c.id :: seen)).1 d hd (hid ▸ List.mem_cons_self c.id seen)

/-- The dedup loop only drops elements: its output is a sublist of its
input (so relative order is preserved). -/
theorem dedupGo_sublist (l : List CaseItem) :
    ∀ seen, List.Sublist (dedupGo l seen) l := by
  induction l with
  | nil => intro seen; simp [dedupGo]
  | cons c rest ih =>
    intro seen
    rw [dedupGo]
    split
    · exact List.Sublist.cons c (ih seen)
    · exact List.Sublist.cons₂ c (ih (c.id :: seen))

/-- Every input id that was not already seen survives into the output. -/
theorem dedupGo_covers (l : List CaseItem) :
    ∀ seen, ∀ c ∈ l, c.id ∉ seen → ∃ d ∈ dedupGo l seen, d.id = c.id := by
  induction l with
  | nil => intro seen c hc; simp at hc
  | cons a rest ih =>
    intro seen c hc hseen
    rw [dedupGo]
    rcases List.mem_cons.mp hc with rfl | hc
    · rw [if_neg hseen]
      exact ⟨c, List.mem_cons_self c _, rfl⟩
    · by_cases ha : a.id ∈ seen
      · rw [if_pos ha]
        exact ih seen c hc hseen
      · rw [if_neg ha]
        by_cases hid : c.id = a.id
        · exact ⟨a, List.mem_cons_self a _, hid.symm⟩
        · obtain ⟨d, hd, hdid⟩ := ih (a.id :: seen) c hc
            (by simp [hseen, hid])
          exact ⟨d, List.mem_cons_of_mem a hd, hdid⟩

/-- Each element the dedup loop keeps is the FIRST occurrence of its id in
the remaining input. -/
theorem dedupGo_keeps_first (l : List CaseItem) :
    ∀ seen, ∀ d ∈ dedupGo l seen,
      l.find? (fun x => x.id == d.id) = some d := by
  induction l with
  | nil => intro seen d hd; simp [dedupGo] at hd
  | cons a rest ih =>
    intro seen d hd
    rw [dedupGo] at hd
    by_cases ha : a.id ∈ seen
    · rw [if_pos ha] at hd
      have hfirst := ih seen d hd
      have hdiff : (a.id == d.id) = false := by
        have := (dedupGo_not_seen rest seen).1 d hd
        exact beq_eq_false_iff_ne.mpr fun h => this (h ▸ ha)
      rw [List.find?_cons, hdiff]
      exact hfirst
    · rw [if_neg ha] at hd
      rcases List.mem_cons.mp hd with rfl | hd
      · rw [List.find?_cons]
        simp
      · have hfirst := ih (a.id :: seen) d hd
        have hnot := (dedupGo_not_seen rest (a.id :: seen)).1 d hd
        have hdiff : (a.id == d.id) = false :=
          beq_eq_false_iff_ne.mpr fun h => hnot (h ▸ List.mem_cons_self a.id seen)
        rw [List.find?_cons, hdiff]
        exact hfirst

/-- C7: the deduplication step keeps exactly one entry per document id:
output ids are pairwise distinct, relative order is preserved (the output
is a sublist of the input), every input id is represented, and each kept
entry is the first occurrence of its id in the input. -/
theorem c7_dedup_first_occurrence (cases : List CaseItem) :
    ((dedupCases cases).map CaseItem.id).Nodup
    ∧ List.Sublist (dedupCases cases) cases
    ∧ (∀ c ∈ cases, ∃ d ∈ dedupCases cases, d.id = c.id)
    ∧ (∀ d ∈ dedupCases cases, cases.find? (fun x => x.id == d.id) = some d) := by
  refine ⟨(dedupGo_not_seen cases []).2, dedupGo_sublist cases [], ?_, ?_⟩
  · intro c hc
    exact dedupGo_covers cases [] c hc (List.not_mem_nil c.id)
  · intro d hd
    exact dedupGo_keeps_first cases [] d hd

/-- A result list in which id 1 appears twice (as across two pages). -/
def demoCases : List CaseItem :=
  [⟨1, "first"⟩, ⟨2, "second"⟩, ⟨1, "dup"⟩]

/-- C7 witness: on a list with a duplicated id, the first occurrence is the
one that survives. -/
theorem c7_witness :
    ∃ d ∈ dedupCases demoCases, d.id = 1 := by
  have h := c7_dedup_first_occurrence demoCases
  exact h.2.2.1 ⟨1, "first"⟩ (by decide)

/-! ## Paginated search (`server.js` 183–222)

```js
const PAGE_SIZE = 20;
async function doSearch(filterObj, headnoteToggle) {
    const searchCases_ = [];
    const totalPgs = Math.ceil(count / PAGE_SIZE);
    let tc = 0;
    for (let p = 1; p <= totalPgs; p++) {
        const searchResult = await searchCases(...);
        tc = searchResult.totalCount;
        searchCases_.push(...searchResult.results);
        if (searchCases_.length >= count || searchCases_.length >= tc) break;
        await new Promise(r => setTimeout(r, 300));
    }
    return { results: searchCases_, totalCount: tc };
}
...
cases = cases.slice(0, count);
```

The remote `searchCases` is an oracle from the page number to that page
of ids plus the reported total; the 300 ms inter-page delay has no
observable effect on any claim and is not recorded. -/

/-- `const PAGE_SIZE = 20` (`server.js` 183). -/
def PAGE_SIZE : Nat := 20

/-- One page of the remote search response: the result ids of that page
and the reported `totalCount`. -/
structure SearchPage where
  results : List Nat
  totalCount : Nat

/-- What `doSearch` produced, plus how many `searchCases` network calls it
made. -/
structure SearchOutcome where
  results : List Nat
  totalCount : Nat
  calls : Nat
deriving DecidableEq

/-- The `for (let p = 1; p <= totalPgs; p++)` loop of `doSearch`; the fuel
argument equals `totalPgs + 1 - p`, so the fuel running out is exactly the
loop condition `p ≤ totalPgs` turning false. -/
def doSearchGo (search : Nat → SearchPage) (count : Nat) :
    Nat → Nat → List Nat → Nat → Nat → SearchOutcome
  | 0, _, acc, tcSoFar, calls => ⟨acc, tcSoFar, calls⟩
  | fuel + 1, p, acc, _tc, calls =>
    let page := search p
    let tc' := page.totalCount
    let acc' := acc ++ page.results
    if acc'.length ≥ count ∨ acc'.length ≥ tc' then ⟨acc', tc', calls + 1⟩
    else doSearchGo search count fuel (p + 1) acc' tc' (calls + 1)
  termination_by structural fuel => fuel

/-- `doSearch`: `totalPgs = Math.ceil(count / PAGE_SIZE)`, loop entered at
`p = 1` with no results accumulated and `tc = 0`. -/
def doSearch (search : Nat → SearchPage) (count : Nat) : SearchOutcome :=
  doSearchGo search count ((count + PAGE_SIZE - 1) / PAGE_SIZE) 1 [] 0 0

/-- C6: with a target count of 45 and page size 20, against a remote that
returns full pages of 20 and reports at least 45 total results, the
paginated search issues exactly `⌈45/20⌉ = 3` calls; the accumulated list
is then trimmed (`cases.slice(0, count)`) to at most 45 entries; and
against a remote reporting fewer available results (30), the loop stops
early — at the reported total — after only 2 calls. -/
theorem c6_pagination_45 (search : Nat → SearchPage)
    (hfull : ∀ p, (search p).results.length = 20)
    (htc : ∀ p, (search p).totalCount ≥ 45) :
    (doSearch search 45).calls = 3
    ∧ ((doSearch search 45).results.take 45).length ≤ 45
    ∧ (∀ search₂ : Nat → SearchPage, (∀ p, (search₂ p).results.length = 20) →
        (∀ p, (search₂ p).totalCount = 30) → (doSearch search₂ 45).calls = 2) := by
  refine ⟨?_, List.length_take_le 45 _, ?_⟩
  · show (doSearchGo search 45 3 1 [] 0 0).calls = 3
    rw [doSearchGo]
    rw [if_neg (by
      simp only [List.nil_append, hfull]
      have h1 := htc 1
      omega)]
    rw [doSearchGo]
    rw [if_neg (by
      simp only [List.length_append, List.nil_append, hfull]
      have h2 := htc (1 + 1)
      omega)]
    rw [doSearchGo]
    rw [if_pos (by
      simp only [List.length_append, List.nil_append, hfull]
      omega)]
  · intro search₂ hfull₂ htc₂
    show (doSearchGo search₂ 45 3 1 [] 0 0).calls = 2
    rw [doSearchGo]
    rw [if_neg (by
      simp only [List.nil_append, hfull₂, htc₂]
      omega)]
    rw [doSearchGo]
    rw [if_pos (by
      simp only [List.length_append, List.nil_append, hfull₂, htc₂]
      omega)]

/-- A remote returning the full page `[20*(p-1), …, 20*p - 1]` for every
page `p` and reporting 100 available results. -/
def demoSearch : Nat → SearchPage :=
  fun p => ⟨(List.range 20).map (fun k => 20 * (p - 1) + k), 100⟩

/-- C6 witness: the concrete remote `demoSearch` yields exactly 3 calls and
at most 45 results after trimming. -/
theorem c6_witness :
    (doSearch demoSearch 45).calls = 3
    ∧ ((doSearch demoSearch 45).results.take 45).length ≤ 45 := by
  have h := c6_pagination_45 demoSearch (fun p => by simp [demoSearch])
    (fun p => by simp [demoSearch])
  exact ⟨h.1, h.2.1⟩

/-! ## Session manager and authenticated-request wrapper (`src/auth.js`)

`isTokenFresh` (lines 140–151) decodes the middle segment of the JWT, and
`getSession` (156–173) serves the persisted session when the token is
fresh, logging in otherwise.  Node's base64 decoding
(`Buffer.from(seg,'base64').toString()` — total, never throws) and
`JSON.parse` (throws on malformed input, modelled as `Option`) are
parameters of the model, as are the filesystem and the remote endpoints:

* `persistedSession = none` models `fs.readFile`/`JSON.parse` failing in
  `getSession`'s `try` block (line 168: "No cached session");
* a JWT payload is modelled by its `exp` claim only (`none` when the
  decoded JSON has no `exp` field, which `if (payload.exp)` treats the
  same as `exp: 0`, both being falsy). -/

/-- The decoded JWT payload: only the `exp` claim matters to the source. -/
structure JwtPayload where
  exp : Option Int
deriving DecidableEq

/-- A Centax session as persisted in `session.json` (`login`, lines
87–93). -/
structure Session where
  token : String
  machineId : String
  ipAddress : String
  timestamp : Int
  email : String
deriving DecidableEq

/-- `token.replace('Bearer', '').replace('Bearer ', '')` (line 143). -/
def jwtStripBearer (token : String) : String :=
  replaceFirst (replaceFirst token "Bearer" "") "Bearer " ""

/-- `rawToken.split('.')[1]`: `none` when the token has no second
period-delimited segment (in JS the index is `undefined` and the
subsequent `Buffer.from` throws, landing in the `catch`). -/
def jwtPayloadSegment (raw : String) : Option String :=
  (jsSplit raw '.').get? 1

/-- The `exp` claim reached by line 144, `none` on any of the failure
paths that the source's `catch { }` absorbs (no second segment, JSON parse
error) or when the decoded payload has no `exp` field. -/
def decodedExpiry (base64Decode : String → String)
    (jsonParse : String → Option JwtPayload) (token : String) : Option Int :=
  match jwtPayloadSegment (jwtStripBearer token) with
  | none => none
  | some seg =>
    match jsonParse (base64Decode seg) with
    | none => none
    | some payload => payload.exp

/-- `isTokenFresh` (lines 140–151): true only when the decoded `exp` claim
is truthy (nonzero) and `exp * 1000 > Date.now() + 5 * 60 * 1000`; every
malformed-token path returns false via the `catch`. -/
def isTokenFresh (base64Decode : String → String)
    (jsonParse : String → Option JwtPayload) (now : Int) (token : String) : Bool :=
  match decodedExpiry base64Decode jsonParse token with
  | some e => if e ≠ 0 then decide (e * 1000 > now + 5 * 60 * 1000) else false
  | none => false

/-- The externally observable actions `getSession`/`login` perform. -/
inductive AuthAction where
  | getClientIpCall
  | loginPost
  | writeSessionFile
deriving DecidableEq

/-- The environment `getSession` runs in: the persisted `session.json`
(`none` when missing or unparseable), the JS decoding primitives, the
clock, and what the remote login endpoint and machine-id lookup would
give back (the successful-login case, which is what the claims are
about). -/
structure SessionEnv where
  persistedSession : Option Session
  base64Decode : String → String
  jsonParse : String → Option JwtPayload
  now : Int
  clientIp : String
  machineId : String
  loginToken : String
  email : String

/-- `login` (lines 44–109), successful case: fetch the client IP, post the
credentials, persist the fresh session to `session.json` (line 95) and
return it.  Second component: the actions performed, in order. -/
def login (env : SessionEnv) : Session × List AuthAction :=
  let session : Session :=
    { token := env.loginToken
      machineId := env.machineId
      ipAddress := env.clientIp
      timestamp := env.now
      email := env.email }
  (session, [AuthAction.getClientIpCall, AuthAction.loginPost, AuthAction.writeSessionFile])

/-- `getSession` (lines 156–173): serve the persisted session untouched
when its token is fresh — performing no action at all — and fall through
to a full `login()` otherwise. -/
def getSession (env : SessionEnv) : Session × List AuthAction :=
  match env.persistedSession with
  | some session =>
    if isTokenFresh env.base64Decode env.jsonParse env.now session.token
    then (session, [])
    else login env
  | none => login env

/-- A token is not fresh whenever its decoded expiry is absent, zero
(falsy), or not beyond the 5-minute safety margin. -/
theorem isTokenFresh_eq_false_of (base64Decode : String → String)
    (jsonParse : String → Option JwtPayload) (now : Int) (token : String)
    (h : ∀ e, decodedExpiry base64Decode jsonParse token = some e →
      ¬(e ≠ 0 ∧ e * 1000 > now + 5 * 60 * 1000)) :
    isTokenFresh base64Decode jsonParse now token = false := by
  cases hd : decodedExpiry base64Decode jsonParse token with
  | none => simp [isTokenFresh, hd]
  | some e =>
    have hne := h e hd
    simp only [isTokenFresh, hd]
    by_cases hz : e ≠ 0
    · rw [if_pos hz]
      simp only [decide_eq_false_iff_not]
      exact fun hgt => hne ⟨hz, hgt⟩
    · rw [if_neg hz]

/-- C3: a persisted session whose token decodes to a (truthy) expiry more
than 5 minutes in the future is returned unchanged with zero network
calls; otherwise — expiry stale/zero, undecodable payload, or no persisted
session at all — `getSession` runs `login`, whose action trace contains
exactly one login call and persists the new session before returning
it. -/
theorem c3_getSession_fresh_vs_login (env : SessionEnv) (s : Session) (e : Int)
    (hp : env.persistedSession = some s)
    (he : decodedExpiry env.base64Decode env.jsonParse s.token = some e)
    (hnz : e ≠ 0)
    (hfresh : e * 1000 > env.now + 5 * 60 * 1000) :
    getSession env = (s, [])
    ∧ (∀ env₂ : SessionEnv, ∀ s₂ : Session, env₂.persistedSession = some s₂ →
        (∀ e₂, decodedExpiry env₂.base64Decode env₂.jsonParse s₂.token = some e₂ →
          ¬(e₂ ≠ 0 ∧ e₂ * 1000 > env₂.now + 5 * 60 * 1000)) →
        getSession env₂ = login env₂)
    ∧ (∀ env₃ : SessionEnv, env₃.persistedSession = none →
        getSession env₃ = login env₃)
    ∧ (∀ env₄ : SessionEnv,
        (login env₄).2.count AuthAction.loginPost = 1
        ∧ AuthAction.writeSessionFile ∈ (login env₄).2
        ∧ (login env₄).1.token = env₄.loginToken) := by
  have hf : isTokenFresh env.base64Decode env.jsonParse env.now s.token = true := by
    simp only [isTokenFresh, he]
    rw [if_pos hnz]
    exact decide_eq_true hfresh
  refine ⟨?_, ?_, ?_, ?_⟩
  · simp only [getSession, hp, hf, if_true]
  · intro env₂ s₂ hp₂ hstale
    have hf₂ := isTokenFresh_eq_false_of env₂.base64Decode env₂.jsonParse env₂.now
      s₂.token hstale
    simp only [getSession, hp₂, hf₂, Bool.false_eq_true, if_false]
  · intro env₃ hp₃
    simp only [getSession, hp₃]
  · intro env₄
    refine ⟨by simp [login], by simp [login], rfl⟩

/-- A persisted session whose token decodes to a far-future expiry. -/
def demoFreshEnv : SessionEnv :=
  { persistedSession := some ⟨"head.payload.sig", "m", "ip", 0, "user"⟩
    base64Decode := fun s => s
    jsonParse := fun s => if s = "payload" then some ⟨some 1000000⟩ else none
    now := 0
    clientIp := "ip"
    machineId := "m"
    loginToken := "tok"
    email := "user" }

/-- C3 witness: `demoFreshEnv`'s persisted session is served unchanged
with no actions performed. -/
theorem c3_witness :
    getSession demoFreshEnv = (⟨"head.payload.sig", "m", "ip", 0, "user"⟩, []) :=
  (c3_getSession_fresh_vs_login demoFreshEnv ⟨"head.payload.sig", "m", "ip", 0, "user"⟩
    1000000 rfl (by decide) (by decide) (by decide)).1

/-- C9: `isTokenFresh` is total (it is a function into `Bool`) and returns
`false` on every malformed token: no second period-delimited segment, a
payload that does not parse as JSON, or a payload without an `exp` field —
the literal `"not-a-jwt"` being a concrete such token for any decoder; and
`getSession` never fails on a corrupt or unreadable persisted session: it
falls through to a fresh login. -/
theorem c9_isTokenFresh_total (base64Decode : String → String)
    (jsonParse : String → Option JwtPayload) (now : Int) (token : String) :
    (jwtPayloadSegment (jwtStripBearer token) = none →
      isTokenFresh base64Decode jsonParse now token = false)
    ∧ (∀ seg, jwtPayloadSegment (jwtStripBearer token) = some seg →
        jsonParse (base64Decode seg) = none →
        isTokenFresh base64Decode jsonParse now token = false)
    ∧ (∀ seg payload, jwtPayloadSegment (jwtStripBearer token) = some seg →
        jsonParse (base64Decode seg) = some payload → payload.exp = none →
        isTokenFresh base64Decode jsonParse now token = false)
    ∧ isTokenFresh base64Decode jsonParse now "not-a-jwt" = false
    ∧ (∀ env : SessionEnv, env.persistedSession = none →
        getSession env = login env)
    ∧ (∀ env : SessionEnv, ∀ s : Session, env.persistedSession = some s →
        isTokenFresh env.base64Decode env.jsonParse env.now s.token = false →
        getSession env = login env) := by
  refine ⟨?_, ?_, ?_, ?_, ?_, ?_⟩
  · intro h
    simp [isTokenFresh, decodedExpiry, h]
  · intro seg hseg hjson
    simp [isTokenFresh, decodedExpiry, hseg, hjson]
  · intro seg payload hseg hjson hexp
    simp [isTokenFresh, decodedExpiry, hseg, hjson, hexp]
  · rfl
  · intro env h
    simp only [getSession, h]
  · intro env s hp hf
    simp only [getSession, hp, hf, Bool.false_eq_true, if_false]

/-- C9 witness: a token with no period-delimited segments is reported as
not fresh, whatever the decoding primitives are. -/
theorem c9_witness :
    isTokenFresh (fun s => s) (fun _ => none) 0 "abc" = false :=
  (c9_isTokenFresh_total (fun s => s) (fun _ => none) 0 "abc").1 (by decide)

/-! ## `authenticatedRequest` (`src/auth.js` 218–231)

```js
async function authenticatedRequest(requestFn) {
    let session = await getSession();
    try {
        return await requestFn(session);
    } catch (err) {
        const status = err.response?.status;
        if (status === 401 || status === 403 || status === 409) {
            session = await forceRefresh();
            return await requestFn(session);
        }
        throw err;
    }
}
```

The operation `requestFn` is a function of the session it is handed; an
error value carries `err.response?.status` (`none` when the error has no
HTTP response). -/

/-- A thrown request error: `status` is `err.response?.status`. -/
structure JsError where
  status : Option Nat
  message : String
deriving DecidableEq

/-- `status === 401 || status === 403 || status === 409` (line 224). -/
def isAuthFailureStatus (status : Option Nat) : Bool :=
  status == some 401 || status == some 403 || status == some 409

/-- Environment of one `authenticatedRequest` call: what `getSession()`
returns, what `forceRefresh()` would return, and the wrapped operation. -/
structure AuthCallEnv (α : Type) where
  getSessionResult : Session
  forceRefreshResult : Session
  requestFn : Session → Except JsError α

/-- Observable record of one `authenticatedRequest` call: its outcome and
how often `requestFn` and `forceRefresh` were invoked. -/
structure AuthCallTrace (α : Type) where
  result : Except JsError α
  fnCalls : Nat
  refreshCalls : Nat

/-- `authenticatedRequest` (lines 218–231). -/
def authenticatedRequest {α : Type} (env : AuthCallEnv α) : AuthCallTrace α :=
  match env.requestFn env.getSessionResult with
  | .ok v => ⟨.ok v, 1, 0⟩
  | .error e =>
    if isAuthFailureStatus e.status then ⟨env.requestFn env.forceRefreshResult, 2, 1⟩
    else ⟨.error e, 1, 0⟩

/-- C2: `authenticatedRequest` invokes its operation at most twice; it
invokes it a second time exactly when the first call failed with status
401, 403 or 409, and then only after one forced refresh, handing the
refreshed session to the second call and returning that call's outcome
unchanged (in particular a second failure propagates); a first-call
success or any other first-call failure is returned unchanged with no
refresh. -/
theorem c2_authenticatedRequest_at_most_twice {α : Type} (env : AuthCallEnv α) :
    (authenticatedRequest env).fnCalls ≤ 2
    ∧ ((authenticatedRequest env).fnCalls = 2 ↔
        ∃ e, env.requestFn env.getSessionResult = Except.error e
          ∧ isAuthFailureStatus e.status = true)
    ∧ ((authenticatedRequest env).refreshCalls = 1 ↔
        (authenticatedRequest env).fnCalls = 2)
    ∧ (∀ v, env.requestFn env.getSessionResult = Except.ok v →
        authenticatedRequest env = ⟨Except.ok v, 1, 0⟩)
    ∧ (∀ e, env.requestFn env.getSessionResult = Except.error e →
        isAuthFailureStatus e.status = false →
        authenticatedRequest env = ⟨Except.error e, 1, 0⟩)
    ∧ (∀ e, env.requestFn env.getSessionResult = Except.error e →
        isAuthFailureStatus e.status = true →
        authenticatedRequest env
          = ⟨env.requestFn env.forceRefreshResult, 2, 1⟩) := by
  cases h : env.requestFn env.getSessionResult with
  | ok v =>
    have hA : authenticatedRequest env = ⟨Except.ok v, 1, 0⟩ := by
      simp [authenticatedRequest, h]
    refine ⟨by simp [hA], ?_, ?_, ?_, ?_, ?_⟩
    · rw [hA]
      constructor
      · intro h2
        simp at h2
      · rintro ⟨e₂, he₂, _⟩
        exact absurd he₂ (by simp)
    · rw [hA]
      simp
    · intro w hw
      injection hw with hvw
      subst hvw
      exact hA
    · intro e he _
      exact absurd he (by simp)
    · intro e he _
      exact absurd he (by simp)
  | error e =>
    by_cases hs : isAuthFailureStatus e.status = true
    · have hA : authenticatedRequest env
          = ⟨env.requestFn env.forceRefreshResult, 2, 1⟩ := by
        simp [authenticatedRequest, h, hs]
      refine ⟨by simp [hA], ?_, ?_, ?_, ?_, ?_⟩
      · rw [hA]
        exact ⟨fun _ => ⟨e, rfl, hs⟩, fun _ => rfl⟩
      · rw [hA]
        simp
      · intro w hw
        exact absurd hw (by simp)
      · intro e₂ he₂ hs₂
        injection he₂ with hee
        subst hee
        rw [hs] at hs₂
        exact absurd hs₂ (by simp)
      · intro e₂ he₂ _
        exact hA
    · have hs' : isAuthFailureStatus e.status = false := by
        cases hb : isAuthFailureStatus e.status
        · rfl
        · exact absurd hb hs
      have hA : authenticatedRequest env = ⟨Except.error e, 1, 0⟩ := by
        simp [authenticatedRequest, h, hs']
      refine ⟨by simp [hA], ?_, ?_, ?_, ?_, ?_⟩
      · rw [hA]
        constructor
        · intro h2
          simp at h2
        · rintro ⟨e₂, he₂, hs₂⟩
          injection he₂ with hee
          subst hee
          exact absurd hs₂ hs
      · rw [hA]
        simp
      · intro w hw
        exact absurd hw (by simp)
      · intro e₂ he₂ _
        injection he₂ with hee
        subst hee
        exact hA
      · intro e₂ he₂ hs₂
        injection he₂ with hee
        subst hee
        exact absurd hs₂ hs

/-- An operation that fails with 401 on the stale session and succeeds on
the refreshed one. -/
def demoAuthEnv : AuthCallEnv Nat :=
  { getSessionResult := ⟨"stale", "m", "ip", 0, "user"⟩
    forceRefreshResult := ⟨"fresh", "m", "ip", 1, "user"⟩
    requestFn := fun s =>
      if s.token = "fresh" then Except.ok 7
      else Except.error ⟨some 401, "unauthorized"⟩ }

/-- C2 witness: on `demoAuthEnv` the wrapper makes exactly two operation
calls and one refresh, and returns the second call's success. -/
theorem c2_witness :
    (authenticatedRequest demoAuthEnv).fnCalls ≤ 2
    ∧ authenticatedRequest demoAuthEnv
        = ⟨Except.ok 7, 2, 1⟩ := by
  have h := c2_authenticatedRequest_at_most_twice demoAuthEnv
  refine ⟨h.1, ?_⟩
  have h2 := h.2.2.2.2.2 ⟨some 401, "unauthorized"⟩ rfl (by decide)
  rw [h2]
  rfl

/-! ## The cached summarizer `summarizeAll` (`src/analyzer.js` 82–137)

The summaries cache is a JS object mapping document ids to
`{ filename, summary }` records; since those records are always truthy,
the source's presence test `if (cached[c.id])` is exactly a key-membership
test.  The cache is modelled as an association list with JS-object update
semantics (`cached[c.id] = v` replaces in place or appends).  The OpenAI
call `summarizeCase` is an oracle `AnalyzeCase → Option String`
(`none` models a rejected promise in `Promise.allSettled`, which the
source logs and skips).  `apiCalls` counts `summarizeCase` invocations and
`cacheWrites` counts `saveSummaries` calls (one per batch). -/

/-- One cached summary record: `{ filename, summary }` (line 118). -/
structure SummaryEntry where
  filename : String
  summary : String
deriving DecidableEq

/-- The summaries cache: document id to summary record. -/
abbrev SummaryCache := List (Nat × SummaryEntry)

/-- JS `cached[docId]` read. -/
def lookupCache : SummaryCache → Nat → Option SummaryEntry
  | [], _ => none
  | (k, v) :: rest, docId => if k = docId then some v else lookupCache rest docId

/-- JS `cached[docId] = v`: replace the existing entry in place, or append
a new key. -/
def insertCache : SummaryCache → Nat → SummaryEntry → SummaryCache
  | [], docId, v => [(docId, v)]
  | (k, w) :: rest, docId, v =>
    if k = docId then (k, v) :: rest else (k, w) :: insertCache rest docId v

/-- A case handed to `summarizeAll`: `{ id, filename, text }`. -/
structure AnalyzeCase where
  id : Nat
  filename : String
  text : String
deriving DecidableEq

/-- `const BATCH_SIZE = 5` (line 84). -/
def BATCH_SIZE : Nat := 5

/-- The slicing `uncached.slice(i, i + BATCH_SIZE)` of the batch loop
(line 104–105): the uncached list cut into chunks of 5. -/
def toBatches : List AnalyzeCase → List (List AnalyzeCase)
  | [] => []
  | c :: rest => ((c :: rest).take BATCH_SIZE) :: toBatches ((c :: rest).drop BATCH_SIZE)
  termination_by l => l.length
  decreasing_by simp [BATCH_SIZE]; omega

/-- Result of a `summarizeAll` run: the returned cache, the number of
`summarizeCase` calls made, and the number of `saveSummaries` cache
writes. -/
structure SummarizeRun where
  cache : SummaryCache
  apiCalls : Nat
  cacheWrites : Nat
deriving DecidableEq

/-- One batch (lines 104–132): `Promise.allSettled` calls `summarizeCase`
on every batch member; each fulfilled result is written into the cache at
the member's id, rejected ones are skipped; then the cache is saved once
(`saveSummaries`, line 127). -/
def processBatch (summarize : AnalyzeCase → Option String)
    (st : SummarizeRun) (batch : List AnalyzeCase) : SummarizeRun :=
  let cacheAfter := batch.foldl (fun acc c =>
    match summarize c with
    | some s => insertCache acc c.id ⟨c.filename, s⟩
    | none => acc) st.cache
  ⟨cacheAfter, st.apiCalls + batch.length, st.cacheWrites + 1⟩

/-- `summarizeAll` (lines 82–137) with `cached` the result of
`loadSummaries()`: filter out already-cached cases; when nothing is left,
return the loaded cache as-is with no API call and no cache write;
otherwise process the uncached cases batch by batch and return the final
cache. -/
def summarizeAll (summarize : AnalyzeCase → Option String)
    (cases : List AnalyzeCase) (cached : SummaryCache) : SummarizeRun :=
  let uncached := cases.filter (fun c => (lookupCache cached c.id).isNone)
  if uncached.length = 0 then ⟨cached, 0, 0⟩
  else (toBatches uncached).foldl (processBatch summarize) ⟨cached, 0, 0⟩

/-- C8: when every case id is already present in the loaded cache,
`summarizeAll` returns the cache unchanged, makes zero summarization calls
and zero cache writes. -/
theorem c8_summarizeAll_idempotent (summarize : AnalyzeCase → Option String)
    (cases : List AnalyzeCase) (cached : SummaryCache)
    (h : ∀ c ∈ cases, (lookupCache cached c.id).isSome = true) :
    summarizeAll summarize cases cached = ⟨cached, 0, 0⟩ := by
  have hempty : cases.filter (fun c => (lookupCache cached c.id).isNone) = [] := by
    rw [List.filter_eq_nil_iff]
    intro c hc
    obtain ⟨v, hv⟩ := Option.isSome_iff_exists.mp (h c hc)
    simp [hv]
  simp [summarizeAll, hempty]

/-- A one-element case list whose id is already cached. -/
def demoSummCases : List AnalyzeCase := [⟨1, "f1", "t1"⟩]

/-- A cache already holding id 1. -/
def demoSummCache : SummaryCache := [(1, ⟨"f1", "s1"⟩)]

/-- C8 witness: an all-cached run is a no-op. -/
theorem c8_witness :
    summarizeAll (fun _ => none) demoSummCases demoSummCache
      = ⟨demoSummCache, 0, 0⟩ :=
  c8_summarizeAll_idempotent (fun _ => none) demoSummCases demoSummCache (by decide)

/-- Updating the cache at one id leaves every other id's entry alone. -/
theorem lookupCache_insert_ne (m : SummaryCache) (k newId : Nat) (v : SummaryEntry)
    (h : newId ≠ k) :
    lookupCache (insertCache m newId v) k = lookupCache m k := by
  induction m with
  | nil =>
    simp only [insertCache, lookupCache]
    rw [if_neg h]
  | cons p rest ih =>
    obtain ⟨kk, vv⟩ := p
    simp only [insertCache]
    by_cases hk : kk = newId
    · rw [if_pos hk]
      have hkne : kk ≠ k := by rw [hk]; exact h
      simp only [lookupCache]
      rw [if_neg hkne, if_neg hkne]
    · rw [if_neg hk]
      simp only [lookupCache]
      by_cases hkk : kk = k
      · rw [if_pos hkk, if_pos hkk]
      · rw [if_neg hkk, if_neg hkk]
        exact ih

/-- The per-batch write fold never disturbs an id that no written case
carries. -/
theorem foldl_insert_preserves (summarize : AnalyzeCase → Option String)
    (k : Nat) (v : SummaryEntry) (batch : List AnalyzeCase) :
    ∀ acc : SummaryCache, lookupCache acc k = some v →
      (∀ c ∈ batch, c.id ≠ k) →
      lookupCache (batch.foldl (fun acc c =>
        match summarize c with
        | some s => insertCache acc c.id ⟨c.filename, s⟩
        | none => acc) acc) k = some v := by
  induction batch with
  | nil => exact fun acc hacc _ => hacc
  | cons c batch ih =>
    intro acc hacc hids
    rw [List.foldl_cons]
    apply ih
    · cases hs : summarize c with
      | none => simpa [hs] using hacc
      | some s =>
        simp only [hs]
        rw [lookupCache_insert_ne _ _ _ _ (hids c (List.mem_cons_self c batch))]
        exact hacc
    · exact fun d hd => hids d (List.mem_cons_of_mem c hd)

/-- Batching is just a partition: every case of every batch comes from the
sliced list. -/
theorem mem_toBatches (l : List AnalyzeCase) :
    ∀ b ∈ toBatches l, ∀ c ∈ b, c ∈ l := by
  induction l using toBatches.induct with
  | case1 => simp [toBatches]
  | case2 c rest ih =>
    intro b hb d hd
    rw [toBatches] at hb
    rcases List.mem_cons.mp hb with rfl | hb
    · exact List.take_subset _ _ hd
    · exact List.drop_subset _ _ (ih b hb d hd)

/-- The batch loop never disturbs an id carried by no uncached case. -/
theorem foldl_processBatch_preserves (summarize : AnalyzeCase → Option String)
    (k : Nat) (v : SummaryEntry) (bs : List (List AnalyzeCase)) :
    ∀ st : SummarizeRun, lookupCache st.cache k = some v →
      (∀ b ∈ bs, ∀ c ∈ b, c.id ≠ k) →
      lookupCache ((bs.foldl (processBatch summarize) st).cache) k = some v := by
  induction bs with
  | nil => exact fun st h _ => h
  | cons b bs ih =>
    intro st h hids
    rw [List.foldl_cons]
    apply ih
    · show lookupCache ((processBatch summarize st b).cache) k = some v
      simp only [processBatch]
      exact foldl_insert_preserves summarize k v b st.cache h
        (hids b (List.mem_cons_self b bs))
    · exact fun b₂ hb₂ => hids b₂ (List.mem_cons_of_mem b hb₂)

/-- C10: `summarizeAll` is monotone over the cache: every entry of the
loaded cache survives with its value unchanged (only ids absent from the
cache are ever written), so the result is a superset of the loaded
cache. -/
theorem c10_summarizeAll_monotone (summarize : AnalyzeCase → Option String)
    (cases : List AnalyzeCase) (cached : SummaryCache) (k : Nat) (v : SummaryEntry)
    (h : lookupCache cached k = some v) :
    lookupCache (summarizeAll summarize cases cached).cache k = some v := by
  simp only [summarizeAll]
  by_cases hlen : (cases.filter (fun c => (lookupCache cached c.id).isNone)).length = 0
  · rw [if_pos hlen]
    exact h
  · rw [if_neg hlen]
    apply foldl_processBatch_preserves summarize k v _ ⟨cached, 0, 0⟩ h
    intro b hb c hc hck
    have hcu : c ∈ cases.filter (fun c => (lookupCache cached c.id).isNone) :=
      mem_toBatches _ b hb c hc
    have hnone := List.of_mem_filter hcu
    rw [hck, h] at hnone
    simp at hnone

/-- A case list with one cached id (1) and one new id (2). -/
def demoMixedCases : List AnalyzeCase := [⟨1, "f1", "t1"⟩, ⟨2, "f2", "t2"⟩]

/-- C10 witness: after a run that summarizes the new id 2, the cached
entry for id 1 is still there, unchanged. -/
theorem c10_witness :
    lookupCache (summarizeAll (fun c => some c.text) demoMixedCases demoSummCache).cache 1
      = some ⟨"f1", "s1"⟩ :=
  c10_summarizeAll_monotone (fun c => some c.text) demoMixedCases demoSummCache
    1 ⟨"f1", "s1"⟩ (by decide)

end WorkflowIQ
